import Mathlib

/-!
Verification of the MergeAI merge-conflict extension core.

The development shallowly embeds the conflict-marker parser
(`ConflictDetector` in src/services/ConflictResolver.ts), the resolution
orchestrator (`ConflictResolver`), and the three AI provider variants
(OllamaProvider / OpenAIProvider / ClaudeProvider).  JavaScript strings
become Lean `String`s, `text.split('\n')` becomes the structurally
recursive `splitLines`, `Array.prototype.join('\n')` becomes `joinLines`,
JavaScript numbers used for confidences and temperatures become `ℚ`, and
async/exception control flow becomes `Except String`.  External
collaborators (HTTP transports, `JSON.parse`, the editor apply primitive,
interactive dialogs) are abstracted as function parameters, exactly at the
boundaries the source calls them.
-/

namespace MergeAI

/-! ## JavaScript character classes

`\s` in a JavaScript regular expression matches the WhiteSpace and
LineTerminator productions; `.` matches everything except LineTerminator.
-/

/-- The JavaScript regex class `\s` (ECMA-262 WhiteSpace ∪ LineTerminator). -/
def isJsWhitespace (c : Char) : Bool :=
  let n := c.toNat
  n = 0x20 || (0x9 ≤ n && n ≤ 0xD) || n = 0xA0 || n = 0x1680 ||
  (0x2000 ≤ n && n ≤ 0x200A) || n = 0x2028 || n = 0x2029 ||
  n = 0x202F || n = 0x205F || n = 0x3000 || n = 0xFEFF

/-- The JavaScript LineTerminator class, which `.` does not match. -/
def isLineTerminator (c : Char) : Bool :=
  let n := c.toNat
  n = 0xA || n = 0xD || n = 0x2028 || n = 0x2029

/-! ## Marker patterns

src/services/ConflictResolver.ts lines 226-229:
conflictStartPattern = `^<{7}\s+(.*)$`, conflictSeparatorPattern = `^={7}$`,
conflictEndPattern = `^>{7}\s+(.*)$`, conflictBasePattern = `^\|{7}\s+(.*)$`.
None of the regexes carries the `m` flag, so `^` anchors at position 0 of
the tested string and `$` at its very end.  `markerTest m s` is the
executable form of testing `^m{7}\s+(.*)$` against the whole string `s`:
the test succeeds iff `s` starts with seven copies of `m`, at least one
`\s` character follows, and after the maximal whitespace run no
LineTerminator remains (backtracking over the `\s+`/`(.*)` split cannot
help, because whatever `(.*)` takes over from `\s+` is whitespace that
precedes the offending terminator). -/
def markerTest (m : Char) (s : String) : Bool :=
  let cs := s.data
  decide (cs.take 7 = List.replicate 7 m) &&
  (let t := cs.drop 7
   !(t.takeWhile isJsWhitespace).isEmpty &&
   (t.dropWhile isJsWhitespace).all (fun c => !isLineTerminator c))

/-- Declarative semantics of the JavaScript regex `^m{7}\s+(.*)$` (no flags)
tested against the whole string: some backtracking split of the tail into a
nonempty `\s+` run and a terminator-free `(.*)` remainder reaches `$`. -/
def markerRegexMatches (m : Char) (s : String) : Prop :=
  ∃ a b : List Char, s.data = List.replicate 7 m ++ (a ++ b) ∧ a ≠ [] ∧
    (∀ c ∈ a, isJsWhitespace c = true) ∧ (∀ c ∈ b, isLineTerminator c = false)

/-- Source `conflictStartPattern` (line 226): the regex `^<{7}\s+(.*)$` as a test. -/
def conflictStartPattern (s : String) : Bool := markerTest '<' s

/-- Source `conflictSeparatorPattern` (line 227): the regex `^={7}$` as a test. -/
def conflictSeparatorPattern (s : String) : Bool := s = "======="

/-- Source `conflictEndPattern` (line 228): the regex `^>{7}\s+(.*)$` as a test. -/
def conflictEndPattern (s : String) : Bool := markerTest '>' s

/-- Source `conflictBasePattern` (line 229): the regex `^\|{7}\s+(.*)$` as a test. -/
def conflictBasePattern (s : String) : Bool := markerTest '|' s

/-- The spec's start-marker pattern `^<{7}\s+\S.*$` (spec.md section 6),
which additionally demands a non-whitespace character after the whitespace
run.  Stated from the spec's words, to be compared against the source's
`conflictStartPattern`. -/
def specConflictStartPattern (s : String) : Bool :=
  let cs := s.data
  decide (cs.take 7 = List.replicate 7 '<') &&
  (let t := cs.drop 7
   !(t.takeWhile isJsWhitespace).isEmpty &&
   !(t.dropWhile isJsWhitespace).isEmpty &&
   (t.dropWhile isJsWhitespace).all (fun c => !isLineTerminator c))

/-! ## JavaScript string splitting and joining -/

/-- Auxiliary for `splitLines`: accumulates the current line in reverse. -/
def splitLinesAux : List Char → List Char → List String
  | [], acc => [String.mk acc.reverse]
  | c :: cs, acc =>
    if c = '\n' then String.mk acc.reverse :: splitLinesAux cs []
    else splitLinesAux cs (c :: acc)

/-- JavaScript `text.split('\n')` (line 234): splits on every newline;
the empty string yields `[""]` and a trailing newline yields a final `""`. -/
def splitLines (text : String) : List String :=
  splitLinesAux text.data []

/-- JavaScript `Array.prototype.join('\n')` (lines 274-277): the empty
array joins to the empty string. -/
def joinLines : List String → String
  | [] => ""
  | [l] => l
  | l :: ls => l ++ "\n" ++ joinLines ls

/-! ## The MergeConflict data model

src/services/ConflictDetector.ts (interface `MergeConflict`, lines 211-223).
In TypeScript every numeric field is declared as `number`, but the parser
builds the record as a `Partial<MergeConflict>` and casts: `currentEnd`,
`separatorLine` and `incomingStart` are written only by the separator
branch, so a conflict finalized without a separator carries them as
`undefined`.  The embedding makes that honest with `Option Nat`. -/
structure MergeConflict where
  startLine : Nat
  endLine : Nat
  currentStart : Nat
  currentEnd : Option Nat
  incomingStart : Option Nat
  incomingEnd : Nat
  separatorLine : Option Nat
  currentContent : String
  incomingContent : String
  baseContent : Option String
  filePath : String
deriving DecidableEq

/-- The fields of `currentConflict : Partial<MergeConflict>` that the parser
fills before the end marker arrives (lines 249-253 and 260-264). -/
structure PartialConflict where
  startLine : Nat
  currentStart : Nat
  currentEnd : Option Nat
  separatorLine : Option Nat
  incomingStart : Option Nat
  filePath : String
deriving DecidableEq

/-- The `section` variable of `detectConflictsInFile` (line 238). -/
inductive Sect
  | current
  | base
  | incoming
deriving DecidableEq

/-- The mutable locals of `detectConflictsInFile` (lines 232-241). -/
structure DetectState where
  conflicts : List MergeConflict
  inConflict : Bool
  currentConflict : Option PartialConflict
  sect : Sect
  currentContent : List String
  baseContent : List String
  incomingContent : List String
deriving DecidableEq

/-- Initial state of the parse loop (lines 232-241). -/
def initState : DetectState :=
  { conflicts := []
    inConflict := false
    currentConflict := none
    sect := Sect.current
    currentContent := []
    baseContent := []
    incomingContent := [] }

/-- The record pushed by the end-marker branch (lines 271-279): `endLine`
and `incomingEnd` come from the end-marker index, the buffers are joined
with newlines, and `baseContent` is set only when the base buffer holds at
least one line. -/
def finishConflict (p : PartialConflict) (i : Nat)
    (cur base inc : List String) : MergeConflict :=
  { startLine := p.startLine
    endLine := i
    currentStart := p.currentStart
    currentEnd := p.currentEnd
    incomingStart := p.incomingStart
    incomingEnd := i - 1
    separatorLine := p.separatorLine
    currentContent := joinLines cur
    incomingContent := joinLines inc
    baseContent := if base.length > 0 then some (joinLines base) else none
    filePath := p.filePath }

/-- One iteration of the parse loop of `detectConflictsInFile`
(lines 243-297), branch for branch. -/
def detectStep (fname : String) (i : Nat) (line : String)
    (st : DetectState) : DetectState :=
  if conflictStartPattern line then
    { st with
      inConflict := true
      currentConflict := some { startLine := i, currentStart := i + 1,
                                currentEnd := none, separatorLine := none,
                                incomingStart := none, filePath := fname }
      sect := Sect.current
      currentContent := []
      baseContent := []
      incomingContent := [] }
  else if st.inConflict && conflictSeparatorPattern line then
    let st1 :=
      match st.currentConflict with
      | some p =>
        { st with
          currentConflict := some { p with currentEnd := some (i - 1),
                                           separatorLine := some i,
                                           incomingStart := some (i + 1) } }
      | none => st
    { st1 with sect := Sect.incoming }
  else if st.inConflict && conflictBasePattern line then
    { st with sect := Sect.base }
  else if st.inConflict && conflictEndPattern line then
    let st1 :=
      match st.currentConflict with
      | some p =>
        { st with conflicts := st.conflicts ++
            [finishConflict p i st.currentContent st.baseContent
              st.incomingContent] }
      | none => st
    { st1 with inConflict := false, currentConflict := none }
  else if st.inConflict then
    match st.sect with
    | Sect.current => { st with currentContent := st.currentContent ++ [line] }
    | Sect.base => { st with baseContent := st.baseContent ++ [line] }
    | Sect.incoming => { st with incomingContent := st.incomingContent ++ [line] }
  else st

/-- The indexed `for` loop of `detectConflictsInFile` (line 243). -/
def detectLoop (fname : String) : Nat → List String → DetectState → DetectState
  | _, [], st => st
  | i, line :: rest, st => detectLoop fname (i + 1) rest (detectStep fname i line st)

/-- Source `ConflictDetector.detectConflictsInFile` (lines 231-300): split the
document text on newlines, run the marker state machine, return the
accumulated conflicts. -/
def detectConflictsInFile (fname text : String) : List MergeConflict :=
  (detectLoop fname 0 (splitLines text) initState).conflicts

/-- Source `ConflictDetector.hasConflicts` (lines 324-329): tests the three
anchored patterns against the WHOLE document text (not line by line). -/
def hasConflicts (text : String) : Bool :=
  conflictStartPattern text && conflictSeparatorPattern text &&
  conflictEndPattern text

/-- Source `ConflictDetector.extractContext` (lines 338-347).  `Math.max(0, ..)`
is truncated `Nat` subtraction and `Array.prototype.slice(a, b)` is
`(drop a).take (b - a)`; both agree with the JavaScript clamping. -/
def extractContext (text : String) (conflict : MergeConflict)
    (contextLines : Nat := 50) : String :=
  let lines := splitLines text
  let startContext := conflict.startLine - contextLines
  let endContext := min (lines.length - 1) (conflict.endLine + contextLines)
  let beforeContext := joinLines
    ((lines.drop startContext).take (conflict.startLine - startContext))
  let afterContext := joinLines
    ((lines.drop (conflict.endLine + 1)).take (endContext + 1 - (conflict.endLine + 1)))
  "Context before conflict:\n" ++ beforeContext ++
    "\n\nContext after conflict:\n" ++ afterContext

/-! ## The parse-loop invariant

After processing lines `0 .. i-1`: every emitted conflict lies strictly
before line `i`, has `startLine < endLine`, and any recorded separator lies
strictly between them; emitted conflicts are ordered by strictly increasing
`startLine`; and an open partial conflict started before line `i`, after
every emitted conflict, with any recorded separator after its start. -/
def DetectInv (i : Nat) (st : DetectState) : Prop :=
  (∀ c ∈ st.conflicts, c.startLine < c.endLine ∧ c.endLine < i ∧
     (∀ j, c.separatorLine = some j → c.startLine < j ∧ j < c.endLine)) ∧
  st.conflicts.Pairwise (fun a b => a.startLine < b.startLine) ∧
  (∀ p, st.currentConflict = some p → p.startLine < i ∧
     (∀ j, p.separatorLine = some j → p.startLine < j ∧ j < i) ∧
     (∀ c ∈ st.conflicts, c.startLine < p.startLine))

/-! ## Batch ordering

`ConflictResolver.resolveAllConflicts` line 95:
`const sortedConflicts = [...conflicts].sort((a, b) => b.startLine - a.startLine);`
ECMAScript `Array.prototype.sort` is stable and the comparator orders by
`startLine` descending; `sortConflictsDesc` is that sort as a stable
insertion sort. -/
def insertByStartLineDesc (c : MergeConflict) :
    List MergeConflict → List MergeConflict
  | [] => [c]
  | d :: ds =>
    if c.startLine < d.startLine then d :: insertByStartLineDesc c ds
    else c :: d :: ds

/-- The per-file conflict ordering used by `resolveAllConflicts` (line 95). -/
def sortConflictsDesc (conflicts : List MergeConflict) : List MergeConflict :=
  conflicts.foldr insertByStartLineDesc []

/-! ## The provider contract (src/providers/AIProvider.ts)

JavaScript numbers (confidences, temperatures) are modelled as `ℚ` with
the source's decimal literals read exactly; `JSON.parse` is abstracted as a
`parseJson : String → Option ParsedResponse` collaborator (`none` models a
thrown `SyntaxError`); each HTTP transport is abstracted as a function from
the request-shaping parameters the source passes it to `Except String` of
the raw reply text, `Except.error` modelling a rejected promise. -/

structure ConflictResolutionRequest where
  currentContent : String
  incomingContent : String
  baseContent : Option String
  context : String
  filePath : String
  language : Option String
deriving DecidableEq

structure ConflictResolutionResponse where
  resolution : String
  explanation : String
  confidence : ℚ
deriving DecidableEq

/-- JavaScript `a || b` where `a` is an optional string: `undefined` and
`""` are falsy. -/
def jsOrString (o : Option String) (d : String) : String :=
  match o with
  | some s => if s = "" then d else s
  | none => d

/-- JavaScript `a || b` where `a` is an optional number: `undefined` and
`0` are falsy. -/
def jsOrNum (o : Option ℚ) (d : ℚ) : ℚ :=
  match o with
  | some q => if q = 0 then d else q
  | none => d

/-- JavaScript `a || b` where `a` is an optional integer count. -/
def jsOrNat (o : Option Nat) (d : Nat) : Nat :=
  match o with
  | some n => if n = 0 then d else n
  | none => d

/-- JavaScript truthiness of an optional string (`!!x`). -/
def jsTruthy (o : Option String) : Bool :=
  match o with
  | some s => s ≠ ""
  | none => false

/-- Source `AIProviderConfig` (src/providers/AIProvider.ts). -/
structure AIProviderConfig where
  apiKey : Option String
  model : Option String
  endpoint : Option String
  temperature : Option ℚ
  maxTokens : Option Nat
deriving DecidableEq

/-- The fields a successfully parsed JSON reply may carry. -/
structure ParsedResponse where
  resolution : Option String
  explanation : Option String
  confidence : Option ℚ
deriving DecidableEq

/-- Source `AIProvider.buildPrompt` (src/providers/AIProvider.ts): the shared
request-shaping helper.  `if (request.baseContent)` skips the base section
for `undefined` and for the empty string. -/
def buildPrompt (request : ConflictResolutionRequest) : String :=
  let prompt :=
    "You are an expert developer helping to resolve a merge conflict in " ++
    request.filePath ++
    ".\n\nThe conflict has occurred between the following versions:\n\nCURRENT VERSION (HEAD):\n```\n" ++
    request.currentContent ++
    "\n```\n\nINCOMING VERSION:\n```\n" ++
    request.incomingContent ++ "\n```\n"
  let prompt :=
    match request.baseContent with
    | some base =>
      if base = "" then prompt
      else prompt ++ "\nBASE VERSION (common ancestor):\n```\n" ++ base ++
        "\n```\n"
    | none => prompt
  prompt ++ "\nSURROUNDING CONTEXT:\n" ++ request.context ++
    "\n\nPlease analyze this merge conflict and provide:\n1. A resolved version that correctly merges both changes\n2. An explanation of your resolution strategy\n3. Your confidence level (0-1) in this resolution\n\nConsider:\n- The intent of both changes\n- Maintaining code functionality\n- Preserving important logic from both versions\n- Following the coding style and patterns in the file\n\nRespond in JSON format:\n\x7b\n    \"resolution\": \"the merged code\",\n    \"explanation\": \"why you resolved it this way\",\n    \"confidence\": 0.95\n\x7d"

/-- Source `OllamaProvider.resolveConflict` (src/providers/OllamaProvider.ts,
lines 14-52).  `generate model prompt temperature numPredict` abstracts
`this.ollama.generate`; a transport failure is wrapped, an unparseable
reply degrades to confidence 0.5, a parsed reply fills missing fields with
`||` fallbacks (confidence 0.7). -/
def OllamaProvider.resolveConflict
    (generate : String → String → ℚ → Nat → Except String String)
    (parseJson : String → Option ParsedResponse)
    (config : AIProviderConfig)
    (request : ConflictResolutionRequest) :
    Except String ConflictResolutionResponse :=
  match generate (jsOrString config.model "codellama") (buildPrompt request)
      (jsOrNum config.temperature (3/10)) (jsOrNat config.maxTokens 2048) with
  | Except.error e =>
    Except.error ("Failed to get resolution from Ollama: " ++ e)
  | Except.ok raw =>
    match parseJson raw with
    | none =>
      Except.ok
        { resolution := raw
          explanation := "AI provided a resolution but response format was unexpected"
          confidence := 1/2 }
    | some parsed =>
      Except.ok
        { resolution := jsOrString parsed.resolution raw
          explanation := jsOrString parsed.explanation "Resolution provided by Ollama"
          confidence := jsOrNum parsed.confidence (7/10) }

/-- Source `OpenAIProvider.resolveConflict` (src/providers/OpenAIProvider.ts,
lines 12-69).  A missing (or empty, hence falsy) API key throws before any
transport call; `post model prompt temperature maxTokens` abstracts the
axios call returning `response.data.choices[0].message.content`; an
unparseable reply degrades to confidence 0.6. -/
def OpenAIProvider.resolveConflict
    (post : String → String → ℚ → Nat → Except String String)
    (parseJson : String → Option ParsedResponse)
    (config : AIProviderConfig)
    (request : ConflictResolutionRequest) :
    Except String ConflictResolutionResponse :=
  if !jsTruthy config.apiKey then
    Except.error "OpenAI API key is required"
  else
    match post (jsOrString config.model "gpt-4") (buildPrompt request)
        (jsOrNum config.temperature (3/10)) (jsOrNat config.maxTokens 2048) with
    | Except.error e =>
      Except.error ("Failed to get resolution from OpenAI: " ++ e)
    | Except.ok content =>
      match parseJson content with
      | none =>
        Except.ok
          { resolution := content
            explanation := "AI provided a resolution but response format was unexpected"
            confidence := 3/5 }
      | some parsed =>
        Except.ok
          { resolution := jsOrString parsed.resolution content
            explanation := jsOrString parsed.explanation "Resolution provided by OpenAI"
            confidence := jsOrNum parsed.confidence (17/20) }

/-- Source `ClaudeProvider.resolveConflict` (src/providers/ClaudeProvider.ts,
lines 12-66): same shape as the OpenAI variant; `post` abstracts the axios
call returning `response.data.content[0].text`. -/
def ClaudeProvider.resolveConflict
    (post : String → String → ℚ → Nat → Except String String)
    (parseJson : String → Option ParsedResponse)
    (config : AIProviderConfig)
    (request : ConflictResolutionRequest) :
    Except String ConflictResolutionResponse :=
  if !jsTruthy config.apiKey then
    Except.error "Claude API key is required"
  else
    match post (jsOrString config.model "claude-3-opus-20240229")
        (buildPrompt request) (jsOrNum config.temperature (3/10))
        (jsOrNat config.maxTokens 2048) with
    | Except.error e =>
      Except.error ("Failed to get resolution from Claude: " ++ e)
    | Except.ok content =>
      match parseJson content with
      | none =>
        Except.ok
          { resolution := content
            explanation := "AI provided a resolution but response format was unexpected"
            confidence := 3/5 }
      | some parsed =>
        Except.ok
          { resolution := jsOrString parsed.resolution content
            explanation := jsOrString parsed.explanation "Resolution provided by Claude"
            confidence := jsOrNum parsed.confidence (17/20) }

/-! ## The resolution orchestrator (src/services/ConflictResolver.ts) -/

/-- Source `ResolutionResult` (lines 6-11). -/
structure ResolutionResult where
  conflict : MergeConflict
  resolution : ConflictResolutionResponse
  applied : Bool
  error : Option String
deriving DecidableEq

/-- The `ConflictResolutionRequest` built by `ConflictResolver.resolveConflict`
(lines 31-38) and, identically, by `getSuggestions` (lines 191-198); the
context window uses the default 50 lines. -/
def mkResolutionRequest (docText : String) (language : Option String)
    (conflict : MergeConflict) : ConflictResolutionRequest :=
  { currentContent := conflict.currentContent
    incomingContent := conflict.incomingContent
    baseContent := conflict.baseContent
    context := extractContext docText conflict
    filePath := conflict.filePath
    language := language }

/-- Source `ConflictResolver.resolveConflict` (lines 19-41): builds the request
and awaits the active provider; whatever the provider returns — success or
rejection — is the method's own outcome, unchanged. -/
def ConflictResolver.resolveConflict
    (provider : ConflictResolutionRequest → Except String ConflictResolutionResponse)
    (docText : String) (language : Option String) (conflict : MergeConflict) :
    Except String ConflictResolutionResponse :=
  provider (mkResolutionRequest docText language conflict)

/-- The choice offered by the apply-failure dialog (lines 120-123). -/
inductive RetryChoice
  | retry
  | skip
  | cancel
deriving DecidableEq

/-- The choice offered by the resolution-error dialog (lines 145-148). -/
inductive ErrorChoice
  | cont
  | cancel
deriving DecidableEq

/-- The placeholder response recorded on a resolution failure
(lines 136-140). -/
def emptyResponse : ConflictResolutionResponse :=
  { resolution := "", explanation := "", confidence := 0 }

/-- Line 130: `results[results.length - 1].applied = retryApplied`. -/
def setLastApplied : List ResolutionResult → Bool → List ResolutionResult
  | [], _ => []
  | [r], applied => [{ r with applied := applied }]
  | r :: rs, applied => r :: setLastApplied rs applied

/-- The per-file inner loop of `resolveAllConflicts` (lines 97-154), over
the conflicts already sorted by `sortConflictsDesc`.  External collaborators:
`applyResolution attempt conflict text` abstracts `applyResolution` (attempt
0 is the first try, attempt 1 the single retry), `onApplyFail` the
Retry/Skip/Cancel warning dialog, `onError` the Continue/Cancel error
dialog.  A resolution failure is caught per conflict: a `ResolutionResult`
with `applied := false` and the failure message is appended and the loop
proceeds unless the user cancels. -/
def resolveAllLoop
    (provider : ConflictResolutionRequest → Except String ConflictResolutionResponse)
    (applyResolution : Nat → MergeConflict → String → Bool)
    (onApplyFail : MergeConflict → RetryChoice)
    (onError : String → ErrorChoice)
    (docText : String) (language : Option String) :
    List MergeConflict → List ResolutionResult → List ResolutionResult
  | [], results => results
  | conflict :: rest, results =>
    match ConflictResolver.resolveConflict provider docText language conflict with
    | Except.ok resolution =>
      let applied := applyResolution 0 conflict resolution.resolution
      let results1 := results ++
        [{ conflict := conflict, resolution := resolution, applied := applied,
           error := if applied then none else some "Failed to apply edit" }]
      if applied then
        resolveAllLoop provider applyResolution onApplyFail onError docText
          language rest results1
      else
        match onApplyFail conflict with
        | RetryChoice.cancel => results1
        | RetryChoice.retry =>
          resolveAllLoop provider applyResolution onApplyFail onError docText
            language rest
            (setLastApplied results1 (applyResolution 1 conflict resolution.resolution))
        | RetryChoice.skip =>
          resolveAllLoop provider applyResolution onApplyFail onError docText
            language rest results1
    | Except.error e =>
      let results1 := results ++
        [{ conflict := conflict, resolution := emptyResponse, applied := false,
           error := some e }]
      match onError e with
      | ErrorChoice.cancel => results1
      | ErrorChoice.cont =>
        resolveAllLoop provider applyResolution onApplyFail onError docText
          language rest results1

/-- The dead `temperatures` array of `getSuggestions` (line 186). -/
def temperatures : List ℚ := [1/5, 1/2, 4/5]

/-- The body of the `getSuggestions` loop (lines 188-205): `n` remaining
iterations, accumulating successful responses and skipping failures. -/
def getSuggestionsGo
    (provider : ConflictResolutionRequest → Except String ConflictResolutionResponse)
    (docText : String) (language : Option String) (conflict : MergeConflict) :
    Nat → List ConflictResolutionResponse → List ConflictResolutionResponse
  | 0, suggestions => suggestions
  | Nat.succ n, suggestions =>
    match ConflictResolver.resolveConflict provider docText language conflict with
    | Except.ok resolution =>
      getSuggestionsGo provider docText language conflict n
        (suggestions ++ [resolution])
    | Except.error _ =>
      getSuggestionsGo provider docText language conflict n suggestions

/-- Source `ConflictResolver.getSuggestions` (lines 177-208): declares
`temperatures = [0.2, 0.5, 0.8]` and runs `Math.min(count,
temperatures.length)` attempts, but the loop body never reads
`temperatures[i]`: each iteration rebuilds the identical request and calls
the provider on it. -/
def getSuggestions
    (provider : ConflictResolutionRequest → Except String ConflictResolutionResponse)
    (docText : String) (language : Option String) (conflict : MergeConflict)
    (count : Nat := 3) : List ConflictResolutionResponse :=
  getSuggestionsGo provider docText language conflict
    (min count temperatures.length) []

/-- A concrete conflict record used by witness statements. -/
def claim7WitnessConflict : MergeConflict :=
  { startLine := 1, endLine := 5, currentStart := 2, currentEnd := some 2,
    incomingStart := some 4, incomingEnd := 4, separatorLine := some 3,
    currentContent := "a", incomingContent := "b", baseContent := none,
    filePath := "t.js" }

/-- A concrete resolution request used by witness statements. -/
def claim8WitnessRequest : ConflictResolutionRequest :=
  { currentContent := "a", incomingContent := "b", baseContent := none,
    context := "ctx", filePath := "t.js", language := some "javascript" }

/-! Sanity anchors mirroring the repository's own test suite
(src/test/suite/ConflictDetector.test.ts, first and last tests). -/

example :
    detectConflictsInFile "t.js"
      "function hello() \x7b\n<<<<<<< HEAD\n    a;\n=======\n    b;\n>>>>>>> feature-branch\n\x7d" =
    [{ startLine := 1, endLine := 5, currentStart := 2, currentEnd := some 2,
       incomingStart := some 4, incomingEnd := 4, separatorLine := some 3,
       currentContent := "    a;", incomingContent := "    b;",
       baseContent := none, filePath := "t.js" }] := by decide

example :
    detectConflictsInFile "t.js"
      "function test() \x7b\n<<<<<<< HEAD\n    some content\n// Missing separator or end marker\n\x7d" =
    [] := by decide

/-! ## List helpers -/

theorem take_length_append {α : Type} (l₁ l₂ : List α) :
    (l₁ ++ l₂).take l₁.length = l₁ := by
  induction l₁ with
  | nil => simp
  | cons c cs ih => simp [ih]

theorem drop_length_append {α : Type} (l₁ l₂ : List α) :
    (l₁ ++ l₂).drop l₁.length = l₂ := by
  induction l₁ with
  | nil => simp
  | cons c cs ih => simp [ih]

theorem takeWhile_append_all {α : Type} (p : α → Bool) (a b : List α)
    (h : ∀ c ∈ a, p c = true) :
    (a ++ b).takeWhile p = a ++ b.takeWhile p := by
  induction a with
  | nil => simp
  | cons c cs ih =>
    have hc : p c = true := h c (by simp)
    simp only [List.cons_append, List.takeWhile_cons, hc, if_true]
    rw [ih (fun x hx => h x (by simp [hx]))]

theorem dropWhile_append_all {α : Type} (p : α → Bool) (a b : List α)
    (h : ∀ c ∈ a, p c = true) :
    (a ++ b).dropWhile p = b.dropWhile p := by
  induction a with
  | nil => simp
  | cons c cs ih =>
    have hc : p c = true := h c (by simp)
    simp only [List.cons_append, List.dropWhile_cons, hc, if_true]
    exact ih (fun x hx => h x (by simp [hx]))

theorem pred_of_mem_takeWhile {α : Type} (p : α → Bool) (l : List α) (c : α)
    (h : c ∈ l.takeWhile p) : p c = true := by
  induction l with
  | nil => simp at h
  | cons d ds ih =>
    by_cases hd : p d = true
    · simp only [List.takeWhile_cons, hd, if_true, List.mem_cons] at h
      rcases h with h | h
      · exact h ▸ hd
      · exact ih h
    · simp only [List.takeWhile_cons, Bool.not_eq_true] at hd
      simp [List.takeWhile_cons, hd] at h

theorem all_dropWhile {α : Type} (p q : α → Bool) (l : List α)
    (h : l.all q = true) : (l.dropWhile p).all q = true := by
  induction l with
  | nil => simp
  | cons c cs ih =>
    simp only [List.all_cons, Bool.and_eq_true] at h
    by_cases hc : p c = true
    · simp only [List.dropWhile_cons, hc, if_true]
      exact ih h.2
    · simp only [Bool.not_eq_true] at hc
      simp [List.dropWhile_cons, hc, List.all_cons, h.1, h.2]

/-! ## The executable marker tests implement the regex semantics -/

theorem markerTest_iff (m : Char) (s : String) :
    markerTest m s = true ↔ markerRegexMatches m s := by
  unfold markerTest markerRegexMatches
  simp only [Bool.and_eq_true, decide_eq_true_eq, Bool.not_eq_true',
    List.all_eq_true, Bool.not_eq_true]
  constructor
  · rintro ⟨h7, hne, hall⟩
    refine ⟨(s.data.drop 7).takeWhile isJsWhitespace,
            (s.data.drop 7).dropWhile isJsWhitespace, ?_, ?_, ?_, ?_⟩
    · rw [List.takeWhile_append_dropWhile, ← h7, List.take_append_drop]
    · intro hnil
      rw [hnil] at hne
      simp at hne
    · exact fun c hc => pred_of_mem_takeWhile _ _ _ hc
    · exact hall
  · rintro ⟨a, b, hs, ha, hws, hb⟩
    have hlen : (List.replicate 7 m).length = 7 := by simp
    have h7 : s.data.take 7 = List.replicate 7 m := by
      rw [hs]
      have h := take_length_append (List.replicate 7 m) (a ++ b)
      rwa [hlen] at h
    have hdrop : s.data.drop 7 = a ++ b := by
      rw [hs]
      have h := drop_length_append (List.replicate 7 m) (a ++ b)
      rwa [hlen] at h
    refine ⟨h7, ?_, ?_⟩
    · rw [hdrop, takeWhile_append_all _ _ _ (fun c hc => hws c hc)]
      cases a with
      | nil => exact absurd rfl ha
      | cons c cs => simp
    · rw [hdrop, dropWhile_append_all _ _ _ (fun c hc => hws c hc)]
      intro c hc
      have : (b.dropWhile isJsWhitespace).all (fun c => !isLineTerminator c) = true := by
        refine all_dropWhile _ _ _ ?_
        exact List.all_eq_true.mpr (fun c hc => by simp [hb c hc])
      have := List.all_eq_true.mp this c hc
      simpa using this

theorem marker_char_eq {m m' : Char} {s : String}
    (h : markerTest m s = true) (h' : markerTest m' s = true) : m = m' := by
  unfold markerTest at h h'
  simp only [Bool.and_eq_true, decide_eq_true_eq] at h h'
  have : List.replicate 7 m = List.replicate 7 m' := h.1.symm.trans h'.1
  simpa [List.replicate_succ] using congrArg (fun l => l.headI) this

theorem markerTest_ne_char {m m' : Char} (hmm : m ≠ m') (s : String)
    (h : markerTest m s = true) : markerTest m' s = false := by
  cases hval : markerTest m' s with
  | false => rfl
  | true => exact absurd (marker_char_eq h hval) hmm

theorem markerTest_sep_false {m : Char} {s : String}
    (hm : markerTest m s = true) (hne : markerTest m "=======" = false) :
    conflictSeparatorPattern s = false := by
  by_cases hs : s = "======="
  · rw [hs] at hm
    rw [hm] at hne
    exact absurd hne (by simp)
  · simp [conflictSeparatorPattern, hs]

/-! ## Parse-loop lemmas -/

theorem detectLoop_append (fname : String) (i : Nat) (xs ys : List String)
    (st : DetectState) :
    detectLoop fname i (xs ++ ys) st =
    detectLoop fname (i + xs.length) ys (detectLoop fname i xs st) := by
  induction xs generalizing i st with
  | nil => simp [detectLoop]
  | cons l ls ih =>
    simp only [List.cons_append, detectLoop, List.length_cons, List.append_eq]
    rw [ih]
    congr 1
    omega

/-- Outside a conflict, lines that do not match the start pattern leave the
state untouched (the separator/base/end branches all require `inConflict`). -/
theorem detectLoop_outside (fname : String) (i : Nat) (xs : List String)
    (cs : List MergeConflict) (sec : Sect) (cc bc ic : List String)
    (h : ∀ l ∈ xs, conflictStartPattern l = false) :
    detectLoop fname i xs ⟨cs, false, none, sec, cc, bc, ic⟩ =
      ⟨cs, false, none, sec, cc, bc, ic⟩ := by
  induction xs generalizing i with
  | nil => simp [detectLoop]
  | cons l ls ih =>
    have hl : conflictStartPattern l = false := h l (by simp)
    have hstep : detectStep fname i l ⟨cs, false, none, sec, cc, bc, ic⟩ =
        ⟨cs, false, none, sec, cc, bc, ic⟩ := by
      simp [detectStep, hl]
    simp only [detectLoop, hstep]
    exact ih _ (fun x hx => h x (by simp [hx]))

/-- The start branch (lines 246-257) fires regardless of the current state:
it resets the buffers and replaces any partial conflict. -/
theorem detectStep_start (fname : String) (i : Nat) (line : String)
    (st : DetectState) (h : conflictStartPattern line = true) :
    detectStep fname i line st =
      { st with
        inConflict := true
        currentConflict := some ⟨i, i + 1, none, none, none, fname⟩
        sect := Sect.current
        currentContent := []
        baseContent := []
        incomingContent := [] } := by
  simp [detectStep, h]

/-- Marker-free lines inside the `current` section are appended to the
current buffer. -/
theorem detectLoop_accum_current (fname : String) (xs : List String)
    (h : ∀ l ∈ xs, conflictStartPattern l = false ∧
      conflictSeparatorPattern l = false ∧ conflictBasePattern l = false ∧
      conflictEndPattern l = false) :
    ∀ (i : Nat) (cs : List MergeConflict) (p : Option PartialConflict)
      (cc bc ic : List String),
    detectLoop fname i xs ⟨cs, true, p, Sect.current, cc, bc, ic⟩ =
      ⟨cs, true, p, Sect.current, cc ++ xs, bc, ic⟩ := by
  induction xs with
  | nil => intro i cs p cc bc ic; simp [detectLoop]
  | cons l ls ih =>
    intro i cs p cc bc ic
    obtain ⟨h1, h2, h3, h4⟩ := h l (by simp)
    have hstep : detectStep fname i l ⟨cs, true, p, Sect.current, cc, bc, ic⟩ =
        ⟨cs, true, p, Sect.current, cc ++ [l], bc, ic⟩ := by
      simp [detectStep, h1, h2, h3, h4]
    simp only [detectLoop, hstep]
    rw [ih (fun x hx => h x (by simp [hx]))]
    simp

/-- Marker-free lines inside the `incoming` section are appended to the
incoming buffer. -/
theorem detectLoop_accum_incoming (fname : String) (xs : List String)
    (h : ∀ l ∈ xs, conflictStartPattern l = false ∧
      conflictSeparatorPattern l = false ∧ conflictBasePattern l = false ∧
      conflictEndPattern l = false) :
    ∀ (i : Nat) (cs : List MergeConflict) (p : Option PartialConflict)
      (cc bc ic : List String),
    detectLoop fname i xs ⟨cs, true, p, Sect.incoming, cc, bc, ic⟩ =
      ⟨cs, true, p, Sect.incoming, cc, bc, ic ++ xs⟩ := by
  induction xs with
  | nil => intro i cs p cc bc ic; simp [detectLoop]
  | cons l ls ih =>
    intro i cs p cc bc ic
    obtain ⟨h1, h2, h3, h4⟩ := h l (by simp)
    have hstep : detectStep fname i l ⟨cs, true, p, Sect.incoming, cc, bc, ic⟩ =
        ⟨cs, true, p, Sect.incoming, cc, bc, ic ++ [l]⟩ := by
      simp [detectStep, h1, h2, h3, h4]
    simp only [detectLoop, hstep]
    rw [ih (fun x hx => h x (by simp [hx]))]
    simp

/-- The separator branch (lines 258-265) on an open conflict. -/
theorem detectStep_sep (fname : String) (i : Nat) (line : String)
    (cs : List MergeConflict) (p : PartialConflict) (sec : Sect)
    (cc bc ic : List String)
    (hstart : conflictStartPattern line = false)
    (hsep : conflictSeparatorPattern line = true) :
    detectStep fname i line ⟨cs, true, some p, sec, cc, bc, ic⟩ =
      ⟨cs, true,
       some { p with currentEnd := some (i - 1), separatorLine := some i,
                     incomingStart := some (i + 1) },
       Sect.incoming, cc, bc, ic⟩ := by
  simp [detectStep, hstart, hsep]

/-- The end-marker branch (lines 269-282) on an open conflict. -/
theorem detectStep_end (fname : String) (i : Nat) (line : String)
    (cs : List MergeConflict) (p : PartialConflict) (sec : Sect)
    (cc bc ic : List String)
    (hstart : conflictStartPattern line = false)
    (hsep : conflictSeparatorPattern line = false)
    (hbase : conflictBasePattern line = false)
    (hend : conflictEndPattern line = true) :
    detectStep fname i line ⟨cs, true, some p, sec, cc, bc, ic⟩ =
      ⟨cs ++ [finishConflict p i cc bc ic], false, none, sec, cc, bc, ic⟩ := by
  simp [detectStep, hstart, hsep, hbase, hend]

/-- Conflicts are pushed only by the end-marker branch. -/
theorem detectStep_conflicts_of_not_end (fname : String) (i : Nat)
    (line : String) (st : DetectState)
    (h : conflictEndPattern line = false) :
    (detectStep fname i line st).conflicts = st.conflicts := by
  unfold detectStep
  split_ifs with h1 h2 h3 h4 h5
  · simp
  · cases st.currentConflict <;> simp
  · simp
  · simp [h] at h4
  · cases st.sect <;> simp
  · rfl

/-- A run over lines none of which matches the end pattern emits nothing. -/
theorem detectLoop_conflicts_of_no_end (fname : String) (xs : List String)
    (h : ∀ l ∈ xs, conflictEndPattern l = false) :
    ∀ (i : Nat) (st : DetectState),
    (detectLoop fname i xs st).conflicts = st.conflicts := by
  induction xs with
  | nil => intro i st; simp [detectLoop]
  | cons l ls ih =>
    intro i st
    simp only [detectLoop]
    rw [ih (fun x hx => h x (by simp [hx]))]
    exact detectStep_conflicts_of_not_end fname i l st (h l (by simp))

theorem detectInv_initAny (i : Nat) : DetectInv i initState := by
  refine ⟨?_, ?_, ?_⟩ <;> simp [initState]

theorem detectInv_transfer {i iNew : Nat} {st stNew : DetectState}
    (h : DetectInv i st) (hc : stNew.conflicts = st.conflicts)
    (hp : stNew.currentConflict = st.currentConflict) (hle : i ≤ iNew) :
    DetectInv iNew stNew := by
  obtain ⟨h1, h2, h3⟩ := h
  refine ⟨?_, ?_, ?_⟩
  · intro c hcmem
    rw [hc] at hcmem
    obtain ⟨ha, hb, hsep⟩ := h1 c hcmem
    exact ⟨ha, by omega, hsep⟩
  · rw [hc]; exact h2
  · intro p hpp
    rw [hp] at hpp
    obtain ⟨ha, hb, hcc⟩ := h3 p hpp
    refine ⟨by omega, fun j hj => ?_, ?_⟩
    · obtain ⟨x, y⟩ := hb j hj
      exact ⟨x, by omega⟩
    · intro c hcm
      rw [hc] at hcm
      exact hcc c hcm

theorem detectStep_inv (fname : String) (i : Nat) (line : String)
    (st : DetectState) (h : DetectInv i st) :
    DetectInv (i + 1) (detectStep fname i line st) := by
  obtain ⟨h1, h2, h3⟩ := h
  unfold detectStep
  split_ifs with hb1 hb2 hb3 hb4 hb5
  · -- start branch: fresh partial conflict at line i
    refine ⟨?_, ?_, ?_⟩
    · intro c hcmem
      simp only at hcmem
      obtain ⟨ha, hb, hsep⟩ := h1 c hcmem
      exact ⟨ha, by omega, hsep⟩
    · simpa using h2
    · intro p hpp
      simp only [Option.some.injEq] at hpp
      refine ⟨?_, ?_, ?_⟩
      · rw [← hpp]
        show i < i + 1
        omega
      · intro j hj
        rw [← hpp] at hj
        simp at hj
      · intro c hcmem
        simp only at hcmem
        obtain ⟨ha, hb, _⟩ := h1 c hcmem
        rw [← hpp]
        show c.startLine < i
        omega
  · -- separator branch
    cases hcc : st.currentConflict with
    | none =>
      refine detectInv_transfer ⟨h1, h2, h3⟩ ?_ ?_ (by omega) <;> simp [hcc]
    | some p =>
      obtain ⟨hpi, _, hpc⟩ := h3 p hcc
      simp only [hcc]
      refine ⟨?_, ?_, ?_⟩
      · intro c hcmem
        simp only at hcmem
        obtain ⟨ha, hb, hsep⟩ := h1 c hcmem
        exact ⟨ha, by omega, hsep⟩
      · simpa using h2
      · intro q hqq
        simp only [Option.some.injEq] at hqq
        refine ⟨?_, ?_, ?_⟩
        · rw [← hqq]; simp only; omega
        · intro j hj
          rw [← hqq] at hj
          simp only [Option.some.injEq] at hj
          rw [← hqq]
          simp only
          omega
        · intro c hcmem
          simp only at hcmem
          rw [← hqq]
          simp only
          exact hpc c hcmem
  · -- base branch: only the section tag changes
    refine detectInv_transfer ⟨h1, h2, h3⟩ ?_ ?_ (by omega) <;> simp
  · -- end branch: push the finished conflict
    cases hcc : st.currentConflict with
    | none =>
      refine detectInv_transfer ⟨h1, h2, h3⟩ ?_ ?_ (by omega) <;> simp [hcc]
    | some p =>
      obtain ⟨hpi, hpsep, hpc⟩ := h3 p hcc
      simp only [hcc]
      refine ⟨?_, ?_, ?_⟩
      · intro c hcmem
        simp only [List.mem_append, List.mem_singleton] at hcmem
        rcases hcmem with hcmem | hcmem
        · obtain ⟨ha, hb, hsep⟩ := h1 c hcmem
          exact ⟨ha, by omega, hsep⟩
        · subst hcmem
          refine ⟨by simpa [finishConflict] using hpi, by simp [finishConflict], ?_⟩
          intro j hj
          simp only [finishConflict] at hj ⊢
          exact hpsep j hj
      · simp only
        rw [List.pairwise_append]
        refine ⟨h2, by simp, ?_⟩
        intro a hamem b hbmem
        simp only [List.mem_singleton] at hbmem
        subst hbmem
        simpa [finishConflict] using hpc a hamem
      · intro q hqq
        simp at hqq
  · -- content line: append to the active buffer
    cases st.sect <;>
      exact detectInv_transfer ⟨h1, h2, h3⟩ (by simp) (by simp) (by omega)
  · exact detectInv_transfer ⟨h1, h2, h3⟩ rfl rfl (by omega)

theorem detectLoop_inv (fname : String) (xs : List String) :
    ∀ (i : Nat) (st : DetectState), DetectInv i st →
    DetectInv (i + xs.length) (detectLoop fname i xs st) := by
  induction xs with
  | nil => intro i st h; simpa [detectLoop] using h
  | cons l ls ih =>
    intro i st h
    simp only [detectLoop, List.length_cons]
    rw [show i + (ls.length + 1) = (i + 1) + ls.length by omega]
    exact ih (i + 1) _ (detectStep_inv fname i l st h)

/-- The invariant at the end of a full parse of the document. -/
theorem detect_inv (fname text : String) :
    DetectInv (splitLines text).length
      (detectLoop fname 0 (splitLines text) initState) := by
  simpa using detectLoop_inv fname (splitLines text) 0 initState (detectInv_initAny 0)

/-- Detected conflicts appear in strictly increasing `startLine` order. -/
theorem detect_pairwise_lt (fname text : String) :
    (detectConflictsInFile fname text).Pairwise
      (fun a b => a.startLine < b.startLine) :=
  (detect_inv fname text).2.1

theorem insertByStartLineDesc_perm (c : MergeConflict)
    (xs : List MergeConflict) :
    List.Perm (insertByStartLineDesc c xs) (c :: xs) := by
  induction xs with
  | nil => exact List.Perm.refl _
  | cons d ds ih =>
    unfold insertByStartLineDesc
    split_ifs with h
    · exact (List.Perm.cons d ih).trans (List.Perm.swap c d ds)
    · exact List.Perm.refl _

theorem sortConflictsDesc_perm (xs : List MergeConflict) :
    List.Perm (sortConflictsDesc xs) xs := by
  induction xs with
  | nil => exact List.Perm.refl _
  | cons d ds ih =>
    exact (insertByStartLineDesc_perm d (sortConflictsDesc ds)).trans
      (List.Perm.cons d ih)

theorem insertByStartLineDesc_sorted (c : MergeConflict)
    (xs : List MergeConflict)
    (h : xs.Pairwise (fun a b => b.startLine ≤ a.startLine)) :
    (insertByStartLineDesc c xs).Pairwise
      (fun a b => b.startLine ≤ a.startLine) := by
  induction xs with
  | nil => simp [insertByStartLineDesc]
  | cons d ds ih =>
    rw [List.pairwise_cons] at h
    obtain ⟨hd, hds⟩ := h
    unfold insertByStartLineDesc
    split_ifs with hlt
    · rw [List.pairwise_cons]
      refine ⟨?_, ih hds⟩
      intro b hb
      rcases List.mem_cons.mp
          ((insertByStartLineDesc_perm c ds).mem_iff.mp hb) with hb | hb
      · subst hb; omega
      · exact hd b hb
    · rw [List.pairwise_cons]
      refine ⟨?_, List.Pairwise.cons hd hds⟩
      intro b hb
      rcases List.mem_cons.mp hb with hb | hb
      · subst hb; omega
      · have := hd b hb; omega

theorem sortConflictsDesc_sorted (xs : List MergeConflict) :
    (sortConflictsDesc xs).Pairwise
      (fun a b => b.startLine ≤ a.startLine) := by
  induction xs with
  | nil => simp [sortConflictsDesc]
  | cons d ds ih => exact insertByStartLineDesc_sorted d _ ih

theorem pairwise_and_of_pairwise {α : Type} {R S : α → α → Prop}
    {l : List α} (hR : l.Pairwise R) (hS : l.Pairwise S) :
    l.Pairwise (fun a b => R a b ∧ S a b) := by
  induction l with
  | nil => exact List.Pairwise.nil
  | cons d ds ih =>
    rw [List.pairwise_cons] at hR hS ⊢
    exact ⟨fun b hb => ⟨hR.1 b hb, hS.1 b hb⟩, ih hR.2 hS.2⟩

theorem detectLoop_cons (fname : String) (i : Nat) (line : String)
    (rest : List String) (st : DetectState) :
    detectLoop fname i (line :: rest) st =
    detectLoop fname (i + 1) rest (detectStep fname i line st) := rfl

/-! ## Claims about the parser -/

/-- Claim C1: a document containing exactly one well-formed 2-way conflict
block — arbitrary non-start-marker lines, a start marker, N marker-free
current lines, the separator, M marker-free incoming lines, an end marker,
then non-start-marker lines — yields exactly one `Conflict`, whose
`currentContent` is the newline-join of the N current lines, whose
`incomingContent` is the newline-join of the M incoming lines, and whose
`endLine - startLine` is `N + M + 2`. -/
theorem claim1_single_two_way_block (fname text : String)
    (pre cur inc post : List String) (s sep e : String)
    (htext : splitLines text = pre ++ s :: (cur ++ sep :: (inc ++ e :: post)))
    (hs : conflictStartPattern s = true)
    (hsep : conflictSeparatorPattern sep = true)
    (he : conflictEndPattern e = true)
    (hpre : ∀ l ∈ pre, conflictStartPattern l = false)
    (hcur : ∀ l ∈ cur, conflictStartPattern l = false ∧
      conflictSeparatorPattern l = false ∧ conflictBasePattern l = false ∧
      conflictEndPattern l = false)
    (hinc : ∀ l ∈ inc, conflictStartPattern l = false ∧
      conflictSeparatorPattern l = false ∧ conflictBasePattern l = false ∧
      conflictEndPattern l = false)
    (hpost : ∀ l ∈ post, conflictStartPattern l = false) :
    ∃ c, detectConflictsInFile fname text = [c] ∧
      c.currentContent = joinLines cur ∧
      c.incomingContent = joinLines inc ∧
      c.endLine - c.startLine = cur.length + inc.length + 2 := by
  have hsepeq : sep = "=======" := by
    simpa [conflictSeparatorPattern] using hsep
  have hsep_start : conflictStartPattern sep = false := by
    rw [hsepeq]; decide
  have he_start : conflictStartPattern e = false :=
    markerTest_ne_char (by decide) e he
  have he_sep : conflictSeparatorPattern e = false :=
    markerTest_sep_false he (by decide)
  have he_base : conflictBasePattern e = false :=
    markerTest_ne_char (by decide) e he
  refine ⟨finishConflict
      ⟨pre.length, pre.length + 1, some (pre.length + 1 + cur.length - 1),
       some (pre.length + 1 + cur.length), some (pre.length + 1 + cur.length + 1),
       fname⟩
      (pre.length + 1 + cur.length + 1 + inc.length) cur [] inc,
    ?_, ?_, ?_, ?_⟩
  · unfold detectConflictsInFile
    rw [htext, detectLoop_append]
    rw [show (initState : DetectState) =
        ⟨[], false, none, Sect.current, [], [], []⟩ from rfl]
    rw [detectLoop_outside fname 0 pre [] Sect.current [] [] [] hpre]
    rw [Nat.zero_add]
    rw [detectLoop_cons]
    rw [detectStep_start fname pre.length s _ hs]
    rw [detectLoop_append]
    rw [detectLoop_accum_current fname cur hcur]
    rw [detectLoop_cons]
    rw [detectStep_sep _ _ _ _ _ _ _ _ _ hsep_start hsep]
    rw [detectLoop_append]
    rw [detectLoop_accum_incoming fname inc hinc]
    rw [detectLoop_cons]
    rw [detectStep_end _ _ _ _ _ _ _ _ _ he_start he_sep he_base he]
    rw [detectLoop_outside fname _ post _ Sect.incoming _ _ _ hpost]
    simp [finishConflict]
  · rfl
  · rfl
  · simp only [finishConflict]
    omega

/-- Witness for C1: one block with two current lines and one incoming line
surrounded by plain text. -/
theorem claim1_witness :
    ∃ c, detectConflictsInFile "f"
        "a\n<<<<<<< HEAD\nx1\nx2\n=======\ny\n>>>>>>> br\nz" = [c] ∧
      c.currentContent = joinLines ["x1", "x2"] ∧
      c.incomingContent = joinLines ["y"] ∧
      c.endLine - c.startLine = ["x1", "x2"].length + ["y"].length + 2 :=
  claim1_single_two_way_block "f"
    "a\n<<<<<<< HEAD\nx1\nx2\n=======\ny\n>>>>>>> br\nz"
    ["a"] ["x1", "x2"] ["y"] ["z"] "<<<<<<< HEAD" "=======" ">>>>>>> br"
    (by decide) (by decide) (by decide) (by decide) (by decide) (by decide)
    (by decide) (by decide)

/-- Claim C2: a start marker that no later line terminates contributes no
`Conflict`: every conflict the parser returns starts strictly before that
marker's line.  (The embedded parser is a total function, so parsing never
raises on such input.) -/
theorem claim2_unterminated_block (fname text : String)
    (pre suf : List String) (s : String)
    (htext : splitLines text = pre ++ s :: suf)
    (hs : conflictStartPattern s = true)
    (hsuf : ∀ l ∈ suf, conflictEndPattern l = false) :
    ∀ c ∈ detectConflictsInFile fname text, c.startLine < pre.length := by
  have hinv := detectLoop_inv fname pre 0 initState (detectInv_initAny 0)
  rw [Nat.zero_add] at hinv
  intro c hc
  simp only [detectConflictsInFile] at hc
  rw [htext, detectLoop_append, Nat.zero_add, detectLoop_cons] at hc
  rw [detectStep_start fname pre.length s _ hs] at hc
  rw [detectLoop_conflicts_of_no_end fname suf hsuf] at hc
  change c ∈ (detectLoop fname 0 pre initState).conflicts at hc
  obtain ⟨h1, _, _⟩ := hinv
  have := h1 c hc
  omega

/-- Witness for C2: a complete block followed by an unterminated start
marker; the one returned conflict starts before the dangling marker. -/
theorem claim2_witness :
    ({ startLine := 0, endLine := 4, currentStart := 1, currentEnd := some 1,
       incomingStart := some 3, incomingEnd := 3, separatorLine := some 2,
       currentContent := "x", incomingContent := "y", baseContent := none,
       filePath := "f" } : MergeConflict).startLine < 5 :=
  claim2_unterminated_block "f"
    "<<<<<<< a\nx\n=======\ny\n>>>>>>> b\n<<<<<<< c\nz"
    ["<<<<<<< a", "x", "=======", "y", ">>>>>>> b"] ["z"] "<<<<<<< c"
    (by decide) (by decide) (by decide)
    { startLine := 0, endLine := 4, currentStart := 1, currentEnd := some 1,
      incomingStart := some 3, incomingEnd := 3, separatorLine := some 2,
      currentContent := "x", incomingContent := "y", baseContent := none,
      filePath := "f" } (by decide)

/-- Claim C3 counterexample: on a document whose conflict block has a start
marker and an end marker but no separator line, `detectConflictsInFile`
still emits one `Conflict`, and its `separatorLine` is undefined (`none`),
so `startLine < separatorLine < endLine` fails for an emitted conflict. -/
theorem claim3_counterexample_missing_separator :
    detectConflictsInFile "f" "<<<<<<< a\n>>>>>>> b" =
      [{ startLine := 0, endLine := 1, currentStart := 1, currentEnd := none,
         incomingStart := none, incomingEnd := 0, separatorLine := none,
         currentContent := "", incomingContent := "", baseContent := none,
         filePath := "f" }] := by decide

/-- Claim C3 (amended): every conflict emitted by `detectConflictsInFile`
whose `separatorLine` is defined satisfies
`startLine < separatorLine < endLine`; a conflict finalized without any
separator line carries `separatorLine = none`. -/
theorem claim3_separator_strictly_between (fname text : String) :
    ∀ c ∈ detectConflictsInFile fname text, ∀ j, c.separatorLine = some j →
      c.startLine < j ∧ j < c.endLine := by
  intro c hc j hj
  exact ((detect_inv fname text).1 c hc).2.2 j hj

/-- Witness for C3 (amended) at a complete concrete block. -/
theorem claim3_witness :
    ({ startLine := 0, endLine := 4, currentStart := 1, currentEnd := some 1,
       incomingStart := some 3, incomingEnd := 3, separatorLine := some 2,
       currentContent := "x", incomingContent := "y", baseContent := none,
       filePath := "f" } : MergeConflict) ∈
        detectConflictsInFile "f" "<<<<<<< a\nx\n=======\ny\n>>>>>>> b" ∧
    (0 < 2 ∧ 2 < 4) :=
  ⟨by decide,
   claim3_separator_strictly_between "f" "<<<<<<< a\nx\n=======\ny\n>>>>>>> b"
     { startLine := 0, endLine := 4, currentStart := 1, currentEnd := some 1,
       incomingStart := some 3, incomingEnd := 3, separatorLine := some 2,
       currentContent := "x", incomingContent := "y", baseContent := none,
       filePath := "f" } (by decide) 2 rfl⟩

/-- Claim C4 (code bug): `hasConflicts` tests the three `^`/`$`-anchored
patterns (compiled without the `m` flag) against the entire document text,
so the separator pattern can only match the text `"======="`, which the
start pattern then rejects: `hasConflicts` returns false for every
document, including any document containing a complete well-formed conflict
block — contradicting the repository's own test
`should check if document has conflicts`. -/
theorem claim4_hasConflicts_never_true (text : String) :
    hasConflicts text = false := by
  by_cases h : text = "======="
  · subst h; decide
  · have hsep : conflictSeparatorPattern text = false := by
      simp [conflictSeparatorPattern, h]
    simp [hasConflicts, hsep]

/-- Claim C5 counterexample: the spec's start pattern `^<{7}\s+\S.*$`
rejects a line of seven `<` followed only by whitespace, but the source's
`^<{7}\s+(.*)$` accepts it, and the parser opens a conflict there: the
claimed bit-exact correspondence fails at the line of seven `<` followed by
a single space. -/
theorem claim5_counterexample_whitespace_label :
    conflictStartPattern "<<<<<<< " = true ∧
    specConflictStartPattern "<<<<<<< " = false ∧
    detectConflictsInFile "f" "<<<<<<< \n=======\n>>>>>>> b" =
      [{ startLine := 0, endLine := 2, currentStart := 1, currentEnd := some 0,
         incomingStart := some 2, incomingEnd := 1, separatorLine := some 1,
         currentContent := "", incomingContent := "", baseContent := none,
         filePath := "f" }] := ⟨by decide, by decide, by decide⟩

/-- Claim C5 (amended): a line is recognized exactly under the source's
patterns: start iff `^<{7}\s+(.*)$`, base iff `^\|{7}\s+(.*)$`, end iff
`^>{7}\s+(.*)$` (the label after the whitespace may be empty or
whitespace-only), and separator iff the line is exactly seven `=`. -/
theorem claim5_marker_patterns (s : String) :
    (conflictStartPattern s = true ↔ markerRegexMatches '<' s) ∧
    (conflictBasePattern s = true ↔ markerRegexMatches '|' s) ∧
    (conflictEndPattern s = true ↔ markerRegexMatches '>' s) ∧
    (conflictSeparatorPattern s = true ↔ s = "=======") := by
  refine ⟨markerTest_iff _ _, markerTest_iff _ _, markerTest_iff _ _, ?_⟩
  simp [conflictSeparatorPattern]

/-- Claim C6: for every document, the per-file processing order of
`resolveAllConflicts` — the detected conflicts sorted by `startLine`
descending (line 95), then resolved/applied sequentially in list order — is
a permutation of the detected conflicts whose `startLine`s are strictly
decreasing, so each edit happens below every still-pending span. -/
theorem claim6_batch_processes_descending (fname text : String) :
    List.Perm (sortConflictsDesc (detectConflictsInFile fname text))
      (detectConflictsInFile fname text) ∧
    (sortConflictsDesc (detectConflictsInFile fname text)).Pairwise
      (fun a b => b.startLine < a.startLine) := by
  refine ⟨sortConflictsDesc_perm _, ?_⟩
  have hsorted := sortConflictsDesc_sorted (detectConflictsInFile fname text)
  have hne : (detectConflictsInFile fname text).Pairwise
      (fun a b => a.startLine ≠ b.startLine) :=
    (detect_pairwise_lt fname text).imp (fun h => Nat.ne_of_lt h)
  have hne' : (sortConflictsDesc (detectConflictsInFile fname text)).Pairwise
      (fun a b => a.startLine ≠ b.startLine) :=
    ((sortConflictsDesc_perm
      (detectConflictsInFile fname text)).pairwise_iff
        (fun h => Ne.symm h)).mpr hne
  exact (pairwise_and_of_pairwise hsorted hne').imp
    (fun h => by omega)

/-- Claim C10: the start-marker branch (lines 246-257) fires regardless of
parser state: a repeated start marker while a conflict is already open
discards the partial block without emitting anything, opens a fresh
conflict at the current line, and clears all three content buffers. -/
theorem claim10_start_marker_resets (fname : String) (i : Nat) (line : String)
    (st : DetectState) (h : conflictStartPattern line = true) :
    (detectStep fname i line st).conflicts = st.conflicts ∧
    (detectStep fname i line st).inConflict = true ∧
    (detectStep fname i line st).currentConflict =
      some ⟨i, i + 1, none, none, none, fname⟩ ∧
    (detectStep fname i line st).sect = Sect.current ∧
    (detectStep fname i line st).currentContent = [] ∧
    (detectStep fname i line st).baseContent = [] ∧
    (detectStep fname i line st).incomingContent = [] := by
  simp [detectStep, h]

/-- Witness for C10: a second start marker in the middle of an open
conflict resets the parse. -/
theorem claim10_witness :
    (detectStep "f" 5 "<<<<<<< HEAD"
      ⟨[], true, some ⟨2, 3, none, none, none, "f"⟩, Sect.current,
       ["old content"], [], []⟩).conflicts = [] ∧
    (detectStep "f" 5 "<<<<<<< HEAD"
      ⟨[], true, some ⟨2, 3, none, none, none, "f"⟩, Sect.current,
       ["old content"], [], []⟩).inConflict = true ∧
    (detectStep "f" 5 "<<<<<<< HEAD"
      ⟨[], true, some ⟨2, 3, none, none, none, "f"⟩, Sect.current,
       ["old content"], [], []⟩).currentConflict =
      some ⟨5, 6, none, none, none, "f"⟩ ∧
    (detectStep "f" 5 "<<<<<<< HEAD"
      ⟨[], true, some ⟨2, 3, none, none, none, "f"⟩, Sect.current,
       ["old content"], [], []⟩).sect = Sect.current ∧
    (detectStep "f" 5 "<<<<<<< HEAD"
      ⟨[], true, some ⟨2, 3, none, none, none, "f"⟩, Sect.current,
       ["old content"], [], []⟩).currentContent = [] ∧
    (detectStep "f" 5 "<<<<<<< HEAD"
      ⟨[], true, some ⟨2, 3, none, none, none, "f"⟩, Sect.current,
       ["old content"], [], []⟩).baseContent = [] ∧
    (detectStep "f" 5 "<<<<<<< HEAD"
      ⟨[], true, some ⟨2, 3, none, none, none, "f"⟩, Sect.current,
       ["old content"], [], []⟩).incomingContent = [] :=
  claim10_start_marker_resets "f" 5 "<<<<<<< HEAD"
    ⟨[], true, some ⟨2, 3, none, none, none, "f"⟩, Sect.current,
     ["old content"], [], []⟩ (by decide)

/-- Claim C7: a provider failure propagates unchanged out of the
orchestrator's `resolveConflict`, while the same failure inside the
`resolveAllConflicts` loop is caught per conflict: a `ResolutionResult`
with `applied := false` and `error` set to the failure message is appended,
after which the loop continues with the remaining conflicts — unless the
user answers Cancel, in which case the accumulated results are returned. -/
theorem claim7_backend_failure_propagation
    (provider : ConflictResolutionRequest → Except String ConflictResolutionResponse)
    (applyResolution : Nat → MergeConflict → String → Bool)
    (onApplyFail : MergeConflict → RetryChoice)
    (onError : String → ErrorChoice)
    (docText : String) (language : Option String) (conflict : MergeConflict)
    (rest : List MergeConflict) (results : List ResolutionResult) (e : String)
    (hfail : provider (mkResolutionRequest docText language conflict) =
      Except.error e) :
    ConflictResolver.resolveConflict provider docText language conflict =
      Except.error e ∧
    (onError e = ErrorChoice.cont →
      resolveAllLoop provider applyResolution onApplyFail onError docText
          language (conflict :: rest) results =
        resolveAllLoop provider applyResolution onApplyFail onError docText
          language rest
          (results ++ [{ conflict := conflict, resolution := emptyResponse,
                         applied := false, error := some e }])) ∧
    (onError e = ErrorChoice.cancel →
      resolveAllLoop provider applyResolution onApplyFail onError docText
          language (conflict :: rest) results =
        results ++ [{ conflict := conflict, resolution := emptyResponse,
                      applied := false, error := some e }]) := by
  have hres : ConflictResolver.resolveConflict provider docText language
      conflict = Except.error e := hfail
  refine ⟨hres, ?_, ?_⟩
  · intro hcont
    simp only [resolveAllLoop, hres, hcont]
  · intro hcancel
    simp only [resolveAllLoop, hres, hcancel]

/-- Witness for C7 with a provider whose transport always rejects. -/
theorem claim7_witness :
    ConflictResolver.resolveConflict (fun _ => Except.error "boom") "doc"
      none claim7WitnessConflict = Except.error "boom" ∧
    ((fun _ : String => ErrorChoice.cont) "boom" = ErrorChoice.cont →
      resolveAllLoop (fun _ => Except.error "boom") (fun _ _ _ => true)
          (fun _ => RetryChoice.skip) (fun _ => ErrorChoice.cont) "doc" none
          [claim7WitnessConflict] [] =
        resolveAllLoop (fun _ => Except.error "boom") (fun _ _ _ => true)
          (fun _ => RetryChoice.skip) (fun _ => ErrorChoice.cont) "doc" none []
          ([] ++ [{ conflict := claim7WitnessConflict,
                    resolution := emptyResponse, applied := false,
                    error := some "boom" }])) ∧
    ((fun _ : String => ErrorChoice.cont) "boom" = ErrorChoice.cancel →
      resolveAllLoop (fun _ => Except.error "boom") (fun _ _ _ => true)
          (fun _ => RetryChoice.skip) (fun _ => ErrorChoice.cont) "doc" none
          [claim7WitnessConflict] [] =
        [] ++ [{ conflict := claim7WitnessConflict,
                 resolution := emptyResponse, applied := false,
                 error := some "boom" }]) :=
  claim7_backend_failure_propagation (fun _ => Except.error "boom")
    (fun _ _ _ => true) (fun _ => RetryChoice.skip)
    (fun _ => ErrorChoice.cont) "doc" none claim7WitnessConflict [] []
    "boom" rfl

/-- Claim C8: for each backend variant, when the transport succeeds but the
reply is not parseable as JSON, `resolveConflict` returns normally with
`resolution` equal to the raw reply, the fixed non-empty fallback
explanation, and confidence exactly 0.5 for the local (Ollama) variant and
exactly 0.6 for the hosted (OpenAI, Claude) variants — in every case a
confidence within [0, 1]. -/
theorem claim8_unparseable_reply_degrades
    (generate postOpenAI postClaude : String → String → ℚ → Nat → Except String String)
    (parseJson : String → Option ParsedResponse)
    (config : AIProviderConfig) (request : ConflictResolutionRequest)
    (raw : String) (key : String)
    (hkey : config.apiKey = some key) (hkeyne : key ≠ "")
    (hparse : parseJson raw = none)
    (hgen : generate (jsOrString config.model "codellama")
      (buildPrompt request) (jsOrNum config.temperature (3/10))
      (jsOrNat config.maxTokens 2048) = Except.ok raw)
    (hpostO : postOpenAI (jsOrString config.model "gpt-4")
      (buildPrompt request) (jsOrNum config.temperature (3/10))
      (jsOrNat config.maxTokens 2048) = Except.ok raw)
    (hpostC : postClaude (jsOrString config.model "claude-3-opus-20240229")
      (buildPrompt request) (jsOrNum config.temperature (3/10))
      (jsOrNat config.maxTokens 2048) = Except.ok raw) :
    OllamaProvider.resolveConflict generate parseJson config request =
      Except.ok
        { resolution := raw
          explanation := "AI provided a resolution but response format was unexpected"
          confidence := 1/2 } ∧
    OpenAIProvider.resolveConflict postOpenAI parseJson config request =
      Except.ok
        { resolution := raw
          explanation := "AI provided a resolution but response format was unexpected"
          confidence := 3/5 } ∧
    ClaudeProvider.resolveConflict postClaude parseJson config request =
      Except.ok
        { resolution := raw
          explanation := "AI provided a resolution but response format was unexpected"
          confidence := 3/5 } ∧
    "AI provided a resolution but response format was unexpected" ≠ "" ∧
    ((0 : ℚ) ≤ 1/2 ∧ (1/2 : ℚ) ≤ 1) ∧ ((0 : ℚ) ≤ 3/5 ∧ (3/5 : ℚ) ≤ 1) := by
  have htruthy : jsTruthy config.apiKey = true := by
    simp [jsTruthy, hkey, hkeyne]
  refine ⟨?_, ?_, ?_, by decide, by norm_num, by norm_num⟩
  · simp only [OllamaProvider.resolveConflict, hgen, hparse]
  · simp only [OpenAIProvider.resolveConflict, htruthy, Bool.not_true,
      Bool.false_eq_true, if_false, hpostO, hparse]
  · simp only [ClaudeProvider.resolveConflict, htruthy, Bool.not_true,
      Bool.false_eq_true, if_false, hpostC, hparse]

/-- Witness for C8 with transports that return a fixed non-JSON reply. -/
theorem claim8_witness :
    OllamaProvider.resolveConflict (fun _ _ _ _ => Except.ok "plain text")
      (fun _ => none) ⟨some "k", none, none, none, none⟩
      claim8WitnessRequest =
      Except.ok
        { resolution := "plain text"
          explanation := "AI provided a resolution but response format was unexpected"
          confidence := 1/2 } ∧
    OpenAIProvider.resolveConflict (fun _ _ _ _ => Except.ok "plain text")
      (fun _ => none) ⟨some "k", none, none, none, none⟩
      claim8WitnessRequest =
      Except.ok
        { resolution := "plain text"
          explanation := "AI provided a resolution but response format was unexpected"
          confidence := 3/5 } ∧
    ClaudeProvider.resolveConflict (fun _ _ _ _ => Except.ok "plain text")
      (fun _ => none) ⟨some "k", none, none, none, none⟩
      claim8WitnessRequest =
      Except.ok
        { resolution := "plain text"
          explanation := "AI provided a resolution but response format was unexpected"
          confidence := 3/5 } ∧
    "AI provided a resolution but response format was unexpected" ≠ "" ∧
    ((0 : ℚ) ≤ 1/2 ∧ (1/2 : ℚ) ≤ 1) ∧ ((0 : ℚ) ≤ 3/5 ∧ (3/5 : ℚ) ≤ 1) :=
  claim8_unparseable_reply_degrades (fun _ _ _ _ => Except.ok "plain text")
    (fun _ _ _ _ => Except.ok "plain text")
    (fun _ _ _ _ => Except.ok "plain text") (fun _ => none)
    ⟨some "k", none, none, none, none⟩ claim8WitnessRequest "plain text" "k"
    rfl (by decide) rfl rfl rfl rfl

/-- Claim C9 (code bug): the `temperatures` array of `getSuggestions` is
dead — every one of the `min count 3` attempts issues the identical
provider call built from the same request, so no two attempts carry
distinct temperatures; a failing attempt is skipped (yielding `[]` here
since the same call fails every time), and the successful responses are
returned. -/
theorem claim9_getSuggestions_ignores_temperatures
    (provider : ConflictResolutionRequest → Except String ConflictResolutionResponse)
    (docText : String) (language : Option String) (conflict : MergeConflict)
    (count : Nat) :
    getSuggestions provider docText language conflict count =
      match provider (mkResolutionRequest docText language conflict) with
      | Except.ok r => List.replicate (min count temperatures.length) r
      | Except.error _ => [] := by
  have go_spec : ∀ (n : Nat) (acc : List ConflictResolutionResponse),
      getSuggestionsGo provider docText language conflict n acc =
      acc ++ (match provider (mkResolutionRequest docText language conflict) with
              | Except.ok r => List.replicate n r
              | Except.error _ => []) := by
    intro n
    induction n with
    | zero =>
      intro acc
      cases h : provider (mkResolutionRequest docText language conflict) <;>
        simp [getSuggestionsGo, h]
    | succ n ih =>
      intro acc
      cases h : provider (mkResolutionRequest docText language conflict) with
      | error e =>
        simp [getSuggestionsGo, ConflictResolver.resolveConflict, h, ih]
      | ok r =>
        simp [getSuggestionsGo, ConflictResolver.resolveConflict, h, ih,
          List.replicate_succ]
  simp [getSuggestions, go_spec]

end MergeAI
